import Mathlib

/-!
Verification of the Engagement Concordance Score aggregation engine
(`engagement_concordance_score.py`, class `EngagementConcordanceScore`).

The engine invokes ten external scorer scripts, parses each one's stdout as a
float, accumulates a weighted mean over the per-model scores, classifies the
composite into a risk level, extracts top risk factors and builds a summary.

Modelling choices:
* machine floats are modelled by `ℚ` (all constants in the source are decimal
  literals, and every claim is about order comparisons and exact weighted
  means, which `ℚ` represents exactly);
* the outcome of one subprocess invocation (`subprocess.run` of a model's
  `simple_score.py`, lines 182-215 of the source) is an element of
  `RunOutcome`: the environment of an analysis run is a function
  `ModelName → RunOutcome` describing what each scorer did;
* Python dicts with fixed string keys become inductive types
  (`ModelName`) and functions out of them; insertion-ordered dict
  iteration becomes iteration over the list `registeredModels`.
-/

namespace ECS

/-- The ten registered model identifiers, from the `weights` dict of
`EngagementConcordanceScore.__init__` (source lines 41-52). -/
inductive ModelName
  | hyperbole_falsehood
  | clickbait
  | engagement_mismatch
  | content_recycling
  | coordinated_network
  | emotive_manipulation
  | rapid_engagement_spike
  | generic_comment
  | authority_signal
  | reply_bait
deriving DecidableEq

/-- Registration (dict insertion) order of the ten models, source lines 41-52.
The analysis loop of `analyze_tweet_comprehensive` iterates `self.models` in
this order. -/
def registeredModels : List ModelName :=
  [ .hyperbole_falsehood, .clickbait, .engagement_mismatch, .content_recycling,
    .coordinated_network, .emotive_manipulation, .rapid_engagement_spike,
    .generic_comment, .authority_signal, .reply_bait ]

/-- The fixed model weights, `self.weights` (source lines 41-52). -/
def weights : ModelName → ℚ
  | .hyperbole_falsehood => 6/10
  | .clickbait => 8/10
  | .engagement_mismatch => 1
  | .content_recycling => 9/10
  | .coordinated_network => 1
  | .emotive_manipulation => 6/10
  | .rapid_engagement_spike => 5/10
  | .generic_comment => 6/10
  | .authority_signal => 7/10
  | .reply_bait => 8/10

/-- Position of a model in registration order (index into `registeredModels`). -/
def regIndex : ModelName → ℕ
  | .hyperbole_falsehood => 0
  | .clickbait => 1
  | .engagement_mismatch => 2
  | .content_recycling => 3
  | .coordinated_network => 4
  | .emotive_manipulation => 5
  | .rapid_engagement_spike => 6
  | .generic_comment => 7
  | .authority_signal => 8
  | .reply_bait => 9

/-- Status strings assigned to `results['model_results'][...]['status']` in the
source: `'success'` (line 229), `'invalid_score'` (line 250),
`'score_not_found'` (line 257), `'error'` (line 265). -/
inductive Status
  | success
  | invalid_score
  | score_not_found
  | error
deriving DecidableEq

/-- One per-model entry of `results['model_results']`: the `score` field
(a float or Python `None`, hence `Option ℚ`) and the `status` field. -/
structure ModelOutcome where
  score : Option ℚ
  status : Status
deriving DecidableEq

/-- Observable behaviour of one model invocation, i.e. of the code in source
lines 165-215 that the engine does not control: whether the model was marked
loaded at startup, whether its script still exists, and what
`subprocess.run` returned.  `exitZero p` is exit status 0 with
`float(stdout.strip())` parsing to `p` (`none` models a `ValueError`). -/
inductive RunOutcome
  | notLoaded
  | scriptMissing
  | exitZero (parsed : Option ℚ)
  | exitNonzero
  | timedOut
  | raisedInner
deriving DecidableEq

/-- Value stored under the model's score key in `model_result` by source lines
182-215.  Exit status 0 with an in-range parse keeps the parsed score
(line 196); an out-of-range parse (line 199), a parse failure (line 202),
a non-zero exit (line 205), a missing script (line 208), a timeout (line 212)
and any other exception in the subprocess block (line 215) all store `0.0`.
(`notLoaded` never reaches this code: the loop `continue`s at line 168.) -/
def modelResultScore : RunOutcome → ℚ
  | .notLoaded => 0
  | .scriptMissing => 0
  | .exitZero (some s) => if 0 ≤ s ∧ s ≤ 1 then s else 0
  | .exitZero none => 0
  | .exitNonzero => 0
  | .timedOut => 0
  | .raisedInner => 0

/-- One entry of `results['weighted_breakdown']` (source lines 238-242). -/
structure BreakdownEntry where
  model : ModelName
  raw_score : ℚ
  weight : ℚ
  weighted_contribution : ℚ
deriving DecidableEq

/-- The mutable loop state of `analyze_tweet_comprehensive`:
`results['model_results']`, `results['weighted_breakdown']` (both
insertion-ordered dicts, modelled as association lists) and the accumulators
`weighted_sum`, `total_weight` (source lines 151-162). -/
structure AnalysisState where
  model_results : List (ModelName × ModelOutcome)
  weighted_breakdown : List BreakdownEntry
  weighted_sum : ℚ
  total_weight : ℚ
deriving DecidableEq

/-- One iteration of the model loop, source lines 165-267, for model `m`.
A model whose `loaded` flag is false is skipped entirely (line 168: `continue`
before any outcome is recorded).  Otherwise `model_result` always holds the
score key (every branch of lines 175-219 assigns `{score_key: v}`), so the
key-presence test of line 223 succeeds; the range test of line 225 decides
between the `success` branch (lines 226-244), which appends to both dicts and
both accumulators, and the `invalid_score` branch (lines 246-251).  The
`score_not_found` branch (line 257) and the outer `except` giving status
`error` (line 265) are structurally unreachable for registered models: the
score key is always present, and lines 221-258 perform only dict lookups on
keys fixed at construction. -/
def runModelStep (env : ModelName → RunOutcome) (st : AnalysisState) (m : ModelName) :
    AnalysisState :=
  if env m = .notLoaded then st
  else
    let score := modelResultScore (env m)
    if 0 ≤ score ∧ score ≤ 1 then
      { model_results := st.model_results ++ [(m, ⟨some score, .success⟩)],
        weighted_breakdown :=
          st.weighted_breakdown ++ [⟨m, score, weights m, score * weights m⟩],
        weighted_sum := st.weighted_sum + score * weights m,
        total_weight := st.total_weight + weights m }
    else
      { st with model_results := st.model_results ++ [(m, ⟨none, .invalid_score⟩)] }

/-- The full model loop (source lines 165-267) from the initial state of
lines 151-162. -/
def runAll (env : ModelName → RunOutcome) : AnalysisState :=
  registeredModels.foldl (runModelStep env) ⟨[], [], 0, 0⟩

/-- Composite score, source lines 269-275: `weighted_sum / total_weight` when
`total_weight > 0`, else `0.0`. -/
def compositeOf (st : AnalysisState) : ℚ :=
  if 0 < st.total_weight then st.weighted_sum / st.total_weight else 0

/-- Risk levels assigned by `_assess_overall_risk` (source lines 289-304). -/
inductive RiskLevel
  | CRITICAL
  | HIGH
  | MODERATE
  | LOW
  | MINIMAL
deriving DecidableEq

/-- The `if/elif` chain of `_assess_overall_risk` (source lines 289-304),
producing the risk level together with its description string. -/
def riskChain (c : ℚ) : RiskLevel × String :=
  if 8/10 ≤ c then
    (.CRITICAL, "Very high manipulation risk detected across multiple dimensions")
  else if 6/10 ≤ c then
    (.HIGH, "High manipulation risk with concerning patterns")
  else if 4/10 ≤ c then
    (.MODERATE, "Moderate risk with some concerning indicators")
  else if 2/10 ≤ c then
    (.LOW, "Low risk with minimal concerning indicators")
  else
    (.MINIMAL, "Minimal risk, appears to be genuine engagement")

/-- The fixed description string of each risk level, as paired with it by the
chain of source lines 289-304. -/
def canonicalDescription : RiskLevel → String
  | .CRITICAL => "Very high manipulation risk detected across multiple dimensions"
  | .HIGH => "High manipulation risk with concerning patterns"
  | .MODERATE => "Moderate risk with some concerning indicators"
  | .LOW => "Low risk with minimal concerning indicators"
  | .MINIMAL => "Minimal risk, appears to be genuine engagement"

/-- One element of the `risk_factors` list of `_assess_overall_risk`
(source lines 311-315). -/
structure RiskFactor where
  model : ModelName
  score : ℚ
  weight : ℚ
deriving DecidableEq

/-- Sort key of the `risk_factors.sort` call (source line 318):
`x['score'] * x['weight']`. -/
def factorKey (f : RiskFactor) : ℚ := f.score * f.weight

/-- Selection of risk factors from `model_results` (source lines 307-315):
entries with `status == 'success'` and `.get('score', 0) > 0.5`, mapped to
`{model, score, weight}` records. -/
def riskFactorsOf (results : List (ModelName × ModelOutcome)) : List RiskFactor :=
  results.filterMap fun p =>
    if p.2.status = .success ∧ 1/2 < p.2.score.getD 0 then
      some ⟨p.1, p.2.score.getD 0, weights p.1⟩
    else none

/-- Insertion step of a stable descending sort by `factorKey`: the new element
`a` (earlier in the input) is placed before the first element whose key is
`≤ factorKey a`, so an element with an equal key that was earlier in the input
ends up earlier in the output — exactly the tie behaviour of Python's stable
`list.sort(key=..., reverse=True)` (source line 318). -/
def insertFactor (a : RiskFactor) : List RiskFactor → List RiskFactor
  | [] => [a]
  | b :: bs => if factorKey b ≤ factorKey a then a :: b :: bs else b :: insertFactor a bs

/-- Stable descending sort by `factorKey`, the extensional behaviour of
`risk_factors.sort(key=lambda x: ..., reverse=True)` at source line 318. -/
def sortFactorsDesc : List RiskFactor → List RiskFactor
  | [] => []
  | a :: as => insertFactor a (sortFactorsDesc as)

/-- Return value of `_assess_overall_risk` (source lines 320-325). -/
structure RiskAssessment where
  risk_level : RiskLevel
  risk_description : String
  top_risk_factors : List RiskFactor
  composite_score : ℚ
deriving DecidableEq

/-- `_assess_overall_risk` (source lines 285-325): risk level and description
from the composite, plus the first three stably-sorted risk factors
(`risk_factors[:3]`, line 323). -/
def assessOverallRisk (composite : ℚ) (results : List (ModelName × ModelOutcome)) :
    RiskAssessment :=
  { risk_level := (riskChain composite).1,
    risk_description := (riskChain composite).2,
    top_risk_factors := (sortFactorsDesc (riskFactorsOf results)).take 3,
    composite_score := composite }

/-- Count of `model_results` entries with `status == 'success'`
(source lines 333-334). -/
def successCount (results : List (ModelName × ModelOutcome)) : ℕ :=
  (results.filter fun p => p.2.status = .success).length

/-- Recommendation list of `_generate_summary` (source lines 338-345): three
independent `if` statements appending to one list, in source order. -/
def recommendationsOf (c : ℚ) : List String :=
  (if 6/10 ≤ c then
    ["Consider flagging for manual review", "Monitor for similar patterns"]
   else []) ++
  (if 4/10 ≤ c then ["Review engagement patterns"] else []) ++
  (if c < 2/10 then ["Engagement appears genuine"] else [])

/-- Confidence label of `_generate_summary` (source line 352). -/
def confidenceOf (n : ℕ) : String :=
  if 7 ≤ n then "high" else if 4 ≤ n then "medium" else "low"

/-- Return value of `_generate_summary` (source lines 347-353); the
`models_analyzed` string `"k/n"` is kept as the pair of counts. -/
structure Summary where
  models_analyzed_success : ℕ
  models_analyzed_total : ℕ
  composite_score : ℚ
  risk_level : RiskLevel
  recommendations : List String
  analysis_confidence : String
deriving DecidableEq

/-- The structured result returned by `analyze_tweet_comprehensive`
(`tweet_id` and the wall-clock `timestamp` carry no logic and are omitted). -/
structure AnalysisResult where
  model_results : List (ModelName × ModelOutcome)
  composite_score : ℚ
  weighted_breakdown : List BreakdownEntry
  risk_assessment : RiskAssessment
  summary : Summary
deriving DecidableEq

/-- `analyze_tweet_comprehensive` (source lines 138-283): run the model loop,
compute the composite, the risk assessment and the summary.
`len(self.models)` is always 10: `load_models` stores an entry for every
registered model whether or not it loads (source lines 112-134). -/
def analyzeTweetComprehensive (env : ModelName → RunOutcome) : AnalysisResult :=
  let st := runAll env
  let composite := compositeOf st
  { model_results := st.model_results,
    composite_score := composite,
    weighted_breakdown := st.weighted_breakdown,
    risk_assessment := assessOverallRisk composite st.model_results,
    summary :=
      { models_analyzed_success := successCount st.model_results,
        models_analyzed_total := registeredModels.length,
        composite_score := composite,
        risk_level := (riskChain composite).1,
        recommendations := recommendationsOf composite,
        analysis_confidence := confidenceOf (successCount st.model_results) } }

/-- Scores of the `status == 'success'` entries of a `model_results` list. -/
def successScoresOf (results : List (ModelName × ModelOutcome)) : List ℚ :=
  results.filterMap fun p => if p.2.status = .success then p.2.score else none

/-- Models whose `loaded` flag is true at analysis time. -/
def loadedModels (env : ModelName → RunOutcome) : List ModelName :=
  registeredModels.filter fun m => env m ≠ .notLoaded

/-- Minimum of a list of rationals (0 for the empty list). -/
def listMin : List ℚ → ℚ
  | [] => 0
  | [a] => a
  | a :: b :: bs => min a (listMin (b :: bs))

/-- Maximum of a list of rationals (0 for the empty list). -/
def listMax : List ℚ → ℚ
  | [] => 0
  | [a] => a
  | a :: b :: bs => max a (listMax (b :: bs))

/-- Sum of a list of rationals. -/
def qsum : List ℚ → ℚ
  | [] => 0
  | a :: as => a + qsum as

/-! Basic facts about the per-model score and the loop state. -/

lemma modelResultScore_nonneg (r : RunOutcome) : 0 ≤ modelResultScore r := by
  cases r with
  | exitZero p =>
    cases p with
    | none => simp [modelResultScore]
    | some s =>
      simp only [modelResultScore]
      split
      · exact (by assumption : 0 ≤ s ∧ s ≤ 1).1
      · exact le_refl 0
  | notLoaded => exact le_refl 0
  | scriptMissing => exact le_refl 0
  | exitNonzero => exact le_refl 0
  | timedOut => exact le_refl 0
  | raisedInner => exact le_refl 0

lemma modelResultScore_le_one (r : RunOutcome) : modelResultScore r ≤ 1 := by
  cases r with
  | exitZero p =>
    cases p with
    | none => simp [modelResultScore]
    | some s =>
      simp only [modelResultScore]
      split
      · exact (by assumption : 0 ≤ s ∧ s ≤ 1).2
      · norm_num
  | notLoaded => norm_num [modelResultScore]
  | scriptMissing => norm_num [modelResultScore]
  | exitNonzero => norm_num [modelResultScore]
  | timedOut => norm_num [modelResultScore]
  | raisedInner => norm_num [modelResultScore]

lemma weights_pos (m : ModelName) : 0 < weights m := by
  cases m <;> norm_num [weights]

lemma runModelStep_notLoaded (env : ModelName → RunOutcome) (st : AnalysisState)
    (m : ModelName) (h : env m = .notLoaded) : runModelStep env st m = st := by
  simp [runModelStep, h]

lemma runModelStep_loaded (env : ModelName → RunOutcome) (st : AnalysisState)
    (m : ModelName) (h : ¬ env m = .notLoaded) :
    runModelStep env st m =
      { model_results :=
          st.model_results ++ [(m, ⟨some (modelResultScore (env m)), .success⟩)],
        weighted_breakdown := st.weighted_breakdown ++
          [⟨m, modelResultScore (env m), weights m,
            modelResultScore (env m) * weights m⟩],
        weighted_sum := st.weighted_sum + modelResultScore (env m) * weights m,
        total_weight := st.total_weight + weights m } := by
  simp [runModelStep, h, modelResultScore_nonneg, modelResultScore_le_one]

/-- Closed form of the model loop over an arbitrary model list and start
state: skipped models contribute nothing; every loaded model appends one
`success` outcome carrying its (possibly defaulted) score, one breakdown
entry, and its weighted contribution to both accumulators. -/
lemma foldl_runModelStep (env : ModelName → RunOutcome) (L : List ModelName)
    (st : AnalysisState) :
    L.foldl (runModelStep env) st =
      { model_results := st.model_results ++
          (L.filter fun m => env m ≠ .notLoaded).map
            (fun m => (m, ⟨some (modelResultScore (env m)), Status.success⟩)),
        weighted_breakdown := st.weighted_breakdown ++
          (L.filter fun m => env m ≠ .notLoaded).map
            (fun m => ⟨m, modelResultScore (env m), weights m,
                       modelResultScore (env m) * weights m⟩),
        weighted_sum := st.weighted_sum +
          qsum ((L.filter fun m => env m ≠ .notLoaded).map
            fun m => modelResultScore (env m) * weights m),
        total_weight := st.total_weight +
          qsum ((L.filter fun m => env m ≠ .notLoaded).map weights) } := by
  induction L generalizing st with
  | nil => simp [qsum]
  | cons m L ih =>
    by_cases h : env m = .notLoaded
    · simp only [List.foldl_cons, runModelStep_notLoaded env st m h, ih,
        List.filter_cons, h]
      simp [h]
    · simp only [List.foldl_cons, runModelStep_loaded env st m h, ih,
        List.filter_cons]
      simp [h, qsum, add_assoc]

lemma qsum_nonneg (l : List ℚ) (h : ∀ x ∈ l, 0 ≤ x) : 0 ≤ qsum l := by
  induction l with
  | nil => simp [qsum]
  | cons a as ih =>
    simp only [qsum]
    have ha := h a (List.mem_cons_self a as)
    have has := ih fun x hx => h x (List.mem_cons_of_mem a hx)
    linarith

lemma qsum_pos (l : List ℚ) (hne : l ≠ []) (h : ∀ x ∈ l, 0 < x) : 0 < qsum l := by
  cases l with
  | nil => exact absurd rfl hne
  | cons a as =>
    simp only [qsum]
    have ha := h a (List.mem_cons_self a as)
    have has := qsum_nonneg as fun x hx => le_of_lt (h x (List.mem_cons_of_mem a hx))
    linarith

lemma qsum_map_le (L : List ModelName) (f w : ModelName → ℚ) (B : ℚ)
    (hw : ∀ m ∈ L, 0 ≤ w m) (hf : ∀ m ∈ L, f m ≤ B) :
    qsum (L.map fun m => f m * w m) ≤ B * qsum (L.map w) := by
  induction L with
  | nil => simp [qsum]
  | cons m L ih =>
    simp only [List.map_cons, qsum, mul_add]
    have h1 : f m * w m ≤ B * w m :=
      mul_le_mul_of_nonneg_right (hf m (List.mem_cons_self m L))
        (hw m (List.mem_cons_self m L))
    have h2 := ih (fun x hx => hw x (List.mem_cons_of_mem m hx))
      (fun x hx => hf x (List.mem_cons_of_mem m hx))
    linarith

lemma le_qsum_map (L : List ModelName) (f w : ModelName → ℚ) (A : ℚ)
    (hw : ∀ m ∈ L, 0 ≤ w m) (hf : ∀ m ∈ L, A ≤ f m) :
    A * qsum (L.map w) ≤ qsum (L.map fun m => f m * w m) := by
  induction L with
  | nil => simp [qsum]
  | cons m L ih =>
    simp only [List.map_cons, qsum, mul_add]
    have h1 : A * w m ≤ f m * w m :=
      mul_le_mul_of_nonneg_right (hf m (List.mem_cons_self m L))
        (hw m (List.mem_cons_self m L))
    have h2 := ih (fun x hx => hw x (List.mem_cons_of_mem m hx))
      (fun x hx => hf x (List.mem_cons_of_mem m hx))
    linarith

lemma listMin_le (l : List ℚ) (x : ℚ) (hx : x ∈ l) : listMin l ≤ x := by
  induction l with
  | nil => simp at hx
  | cons a as ih =>
    cases as with
    | nil =>
      rcases List.mem_cons.mp hx with h | h
      · simp [listMin, h]
      · simp at h
    | cons b bs =>
      rcases List.mem_cons.mp hx with h | h
      · subst h
        exact min_le_left _ _
      · exact le_trans (min_le_right _ _) (ih h)

lemma le_listMax (l : List ℚ) (x : ℚ) (hx : x ∈ l) : x ≤ listMax l := by
  induction l with
  | nil => simp at hx
  | cons a as ih =>
    cases as with
    | nil =>
      rcases List.mem_cons.mp hx with h | h
      · simp [listMax, h]
      · simp at h
    | cons b bs =>
      rcases List.mem_cons.mp hx with h | h
      · subst h
        exact le_max_left _ _
      · exact le_trans (ih h) (le_max_right _ _)

/-- Closed form of `runAll`. -/
lemma runAll_eq (env : ModelName → RunOutcome) :
    runAll env =
      { model_results := (loadedModels env).map
          (fun m => (m, ⟨some (modelResultScore (env m)), Status.success⟩)),
        weighted_breakdown := (loadedModels env).map
          (fun m => ⟨m, modelResultScore (env m), weights m,
                     modelResultScore (env m) * weights m⟩),
        weighted_sum := qsum ((loadedModels env).map
          fun m => modelResultScore (env m) * weights m),
        total_weight := qsum ((loadedModels env).map weights) } := by
  unfold runAll loadedModels
  rw [foldl_runModelStep]
  simp

/-! Lemmas about the stable descending sort of risk factors. -/

/-- Order produced by a stable descending sort keyed on `factorKey`: later
elements have strictly smaller keys, or equal keys and a strictly later
registration index. -/
def factorRel (x y : RiskFactor) : Prop :=
  factorKey y < factorKey x ∨
    (factorKey y = factorKey x ∧ regIndex x.model < regIndex y.model)

lemma mem_insertFactor {a x : RiskFactor} {l : List RiskFactor} :
    x ∈ insertFactor a l ↔ x = a ∨ x ∈ l := by
  induction l with
  | nil => simp [insertFactor]
  | cons b bs ih =>
    simp only [insertFactor]
    split
    · simp
    · simp only [List.mem_cons, ih]
      tauto

lemma insertFactor_perm (a : RiskFactor) (l : List RiskFactor) :
    (insertFactor a l).Perm (a :: l) := by
  induction l with
  | nil => simp [insertFactor]
  | cons b bs ih =>
    simp only [insertFactor]
    split
    · exact List.Perm.refl _
    · exact ((ih.cons b).trans (List.Perm.swap a b bs))

lemma sortFactorsDesc_perm (l : List RiskFactor) : (sortFactorsDesc l).Perm l := by
  induction l with
  | nil => exact List.Perm.refl _
  | cons a as ih => exact (insertFactor_perm a (sortFactorsDesc as)).trans (ih.cons a)

lemma insertFactor_pairwise (a : RiskFactor) (l : List RiskFactor)
    (hl : l.Pairwise factorRel)
    (ha : ∀ b ∈ l, regIndex a.model < regIndex b.model) :
    (insertFactor a l).Pairwise factorRel := by
  induction l with
  | nil => simp [insertFactor]
  | cons b bs ih =>
    rcases List.pairwise_cons.mp hl with ⟨hb, hbs⟩
    simp only [insertFactor]
    split
    case isTrue h =>
      refine List.pairwise_cons.mpr ⟨?_, hl⟩
      intro c hc
      rcases List.mem_cons.mp hc with hcb | hcbs
      · subst hcb
        rcases lt_or_eq_of_le h with hlt | heq
        · exact Or.inl hlt
        · exact Or.inr ⟨heq, ha c (List.mem_cons_self c bs)⟩
      · rcases hb c hcbs with hlt | ⟨heq, _⟩
        · exact Or.inl (lt_of_lt_of_le hlt h)
        · rcases lt_or_eq_of_le h with hblt | hbeq
          · exact Or.inl (heq ▸ hblt)
          · exact Or.inr ⟨heq.trans hbeq, ha c (List.mem_cons_of_mem b hcbs)⟩
    case isFalse h =>
      refine List.pairwise_cons.mpr ⟨?_, ih hbs
        (fun c hc => ha c (List.mem_cons_of_mem b hc))⟩
      intro c hc
      rcases mem_insertFactor.mp hc with hca | hcbs
      · subst hca
        exact Or.inl (lt_of_not_le h)
      · exact hb c hcbs

lemma sortFactorsDesc_pairwise (l : List RiskFactor)
    (h : l.Pairwise fun x y => regIndex x.model < regIndex y.model) :
    (sortFactorsDesc l).Pairwise factorRel := by
  induction l with
  | nil => simp [sortFactorsDesc]
  | cons a as ih =>
    rcases List.pairwise_cons.mp h with ⟨ha, has⟩
    exact insertFactor_pairwise a (sortFactorsDesc as) (ih has)
      (fun b hb => ha b ((sortFactorsDesc_perm as).mem_iff.mp hb))

/-! Concrete run environments used in counterexamples and witnesses. -/

/-- Only `engagement_mismatch` is loaded; its scorer exits 0 printing `1.5`. -/
def envOutOfRange : ModelName → RunOutcome := fun m =>
  if m = .engagement_mismatch then .exitZero (some (3/2)) else .notLoaded

/-- All ten scorers exit with non-zero status. -/
def envAllNonzeroExit : ModelName → RunOutcome := fun _ => .exitNonzero

/-- No model passed the startup availability check. -/
def envAllUnloaded : ModelName → RunOutcome := fun _ => .notLoaded

/-- Only `engagement_mismatch` is loaded; its scorer exceeds the 30-second
timeout. -/
def envTimeoutOne : ModelName → RunOutcome := fun m =>
  if m = .engagement_mismatch then .timedOut else .notLoaded

/-- Scenario of spec §8: three models succeed with scores 0.8 (weight 1.0),
0.6 (weight 0.6) and 0.4 (weight 0.6); the rest are unloaded.  The model
choice matches `test_system.py::test_weight_calculation`. -/
def envScenario1 : ModelName → RunOutcome := fun m =>
  match m with
  | .coordinated_network => .exitZero (some (8/10))
  | .emotive_manipulation => .exitZero (some (6/10))
  | .generic_comment => .exitZero (some (4/10))
  | _ => .notLoaded

/-- Only `clickbait` is loaded; its scorer succeeds with score 0.5. -/
def envOneLoaded : ModelName → RunOutcome := fun m =>
  if m = .clickbait then .exitZero (some (1/2)) else .notLoaded

lemma mem_registeredModels (m : ModelName) : m ∈ registeredModels := by
  cases m <;> decide

lemma mem_loadedModels {env : ModelName → RunOutcome} {m : ModelName} :
    m ∈ loadedModels env ↔ env m ≠ .notLoaded := by
  simp [loadedModels, mem_registeredModels]

lemma analyze_model_results (env : ModelName → RunOutcome) :
    (analyzeTweetComprehensive env).model_results = (runAll env).model_results := rfl

lemma analyze_breakdown (env : ModelName → RunOutcome) :
    (analyzeTweetComprehensive env).weighted_breakdown =
      (runAll env).weighted_breakdown := rfl

lemma analyze_composite (env : ModelName → RunOutcome) :
    (analyzeTweetComprehensive env).composite_score = compositeOf (runAll env) := rfl

/-- Any loaded model whose stored score is the `0.0` fallback yields a
`success` outcome with score `0.0` and a breakdown entry contributing its full
weight to the denominator and zero to the numerator. -/
lemma loaded_zero_mem (env : ModelName → RunOutcome) (m : ModelName)
    (h₁ : env m ≠ .notLoaded) (h₂ : modelResultScore (env m) = 0) :
    (m, (⟨some 0, .success⟩ : ModelOutcome)) ∈
        (analyzeTweetComprehensive env).model_results ∧
    (⟨m, 0, weights m, 0⟩ : BreakdownEntry) ∈
        (analyzeTweetComprehensive env).weighted_breakdown := by
  have hm : m ∈ loadedModels env := mem_loadedModels.mpr h₁
  constructor
  · rw [analyze_model_results, runAll_eq]
    exact List.mem_map.mpr ⟨m, hm, by rw [h₂]⟩
  · rw [analyze_breakdown, runAll_eq]
    exact List.mem_map.mpr ⟨m, hm, by rw [h₂, zero_mul]⟩

/-- Claim C1 counterexample: only `engagement_mismatch` runs and its scorer
exits 0 printing `1.5`.  The recorded outcome has status `success` with score
`0.0` (not `invalid_score` with a null score), and the model's weight `1.0` is
the whole denominator of the composite, so an out-of-range model does
contribute weight. -/
theorem out_of_range_yields_success_zero :
    (analyzeTweetComprehensive envOutOfRange).model_results =
      [(.engagement_mismatch, ⟨some 0, .success⟩)] ∧
    (runAll envOutOfRange).total_weight = 1 ∧
    (analyzeTweetComprehensive envOutOfRange).composite_score = 0 ∧
    Status.success ≠ Status.invalid_score := by
  have hload : loadedModels envOutOfRange = [.engagement_mismatch] := by decide
  have hscore : modelResultScore (envOutOfRange .engagement_mismatch) = 0 := by
    norm_num [envOutOfRange, modelResultScore]
  refine ⟨?_, ?_, ?_, by decide⟩
  · rw [analyze_model_results, runAll_eq]
    simp [hload, hscore]
  · rw [runAll_eq]
    simp [hload, qsum, weights]
  · rw [analyze_composite, runAll_eq]
    simp [hload, hscore, compositeOf, qsum, weights]

/-- Claim C1 (amended): a scorer invocation that exits 0 but whose trimmed
stdout parses to a float outside [0,1] has its score replaced by the `0.0`
fallback: the resulting outcome has status `success` with score `0.0`, and the
model contributes its full weight to the denominator and zero to the numerator
of the composite (breakdown entry with raw score 0 and contribution 0). -/
theorem out_of_range_clamped_to_zero (env : ModelName → RunOutcome)
    (m : ModelName) (s : ℚ) (h : env m = .exitZero (some s))
    (hs : ¬ (0 ≤ s ∧ s ≤ 1)) :
    (m, (⟨some 0, .success⟩ : ModelOutcome)) ∈
        (analyzeTweetComprehensive env).model_results ∧
    (⟨m, 0, weights m, 0⟩ : BreakdownEntry) ∈
        (analyzeTweetComprehensive env).weighted_breakdown := by
  apply loaded_zero_mem
  · rw [h]
    intro hc
    exact RunOutcome.noConfusion hc
  · rw [h]
    simp [modelResultScore, hs]

/-- Witness for `out_of_range_clamped_to_zero` at the concrete environment
where `engagement_mismatch` prints `1.5`. -/
theorem out_of_range_clamped_to_zero_witness :
    (ModelName.engagement_mismatch, (⟨some 0, .success⟩ : ModelOutcome)) ∈
        (analyzeTweetComprehensive envOutOfRange).model_results ∧
    (⟨.engagement_mismatch, 0, weights .engagement_mismatch, 0⟩ : BreakdownEntry) ∈
        (analyzeTweetComprehensive envOutOfRange).weighted_breakdown :=
  out_of_range_clamped_to_zero envOutOfRange .engagement_mismatch (3/2) rfl
    (by norm_num)

lemma analyze_risk_level (env : ModelName → RunOutcome) :
    (analyzeTweetComprehensive env).risk_assessment.risk_level =
      (riskChain (analyzeTweetComprehensive env).composite_score).1 := rfl

lemma analyze_risk_description (env : ModelName → RunOutcome) :
    (analyzeTweetComprehensive env).risk_assessment.risk_description =
      (riskChain (analyzeTweetComprehensive env).composite_score).2 := rfl

/-- Claim C2 counterexample: when all ten scorers exit with non-zero status,
every recorded outcome has status `success` (with the `0.0` fallback score),
not status `error`, and the failed models do contribute weight: the
denominator is the full weight total 7.5. -/
theorem all_nonzero_exit_statuses_are_success :
    (analyzeTweetComprehensive envAllNonzeroExit).model_results =
      [ (.hyperbole_falsehood, ⟨some 0, .success⟩),
        (.clickbait, ⟨some 0, .success⟩),
        (.engagement_mismatch, ⟨some 0, .success⟩),
        (.content_recycling, ⟨some 0, .success⟩),
        (.coordinated_network, ⟨some 0, .success⟩),
        (.emotive_manipulation, ⟨some 0, .success⟩),
        (.rapid_engagement_spike, ⟨some 0, .success⟩),
        (.generic_comment, ⟨some 0, .success⟩),
        (.authority_signal, ⟨some 0, .success⟩),
        (.reply_bait, ⟨some 0, .success⟩) ] ∧
    (runAll envAllNonzeroExit).total_weight = 15/2 ∧
    Status.success ≠ Status.error := by
  have hload : loadedModels envAllNonzeroExit = registeredModels := by decide
  refine ⟨?_, ?_, by decide⟩
  · rw [analyze_model_results, runAll_eq]
    simp [hload, registeredModels, envAllNonzeroExit, modelResultScore]
  · rw [runAll_eq]
    norm_num [hload, registeredModels, qsum, weights]

/-- Claim C2 (amended): a run in which all ten registered models exit with
non-zero status still returns a complete report: the composite score is 0.0,
the risk level is MINIMAL with its canonical description, and the result lists
ten outcomes, one per model in registration order — but each outcome has
status `success` with the `0.0` fallback score, and every model contributes
its weight to the denominator (total 7.5) while the numerator is 0. -/
theorem all_nonzero_exit_report (env : ModelName → RunOutcome)
    (h : ∀ m, env m = .exitNonzero) :
    (analyzeTweetComprehensive env).model_results =
      registeredModels.map (fun m => (m, ⟨some 0, .success⟩)) ∧
    (analyzeTweetComprehensive env).model_results.length = 10 ∧
    (analyzeTweetComprehensive env).composite_score = 0 ∧
    (analyzeTweetComprehensive env).risk_assessment.risk_level = .MINIMAL ∧
    (analyzeTweetComprehensive env).risk_assessment.risk_description =
      "Minimal risk, appears to be genuine engagement" ∧
    (runAll env).total_weight = 15/2 ∧
    (runAll env).weighted_sum = 0 := by
  have henv : env = fun _ => .exitNonzero := funext h
  subst henv
  have hload : loadedModels (fun _ => RunOutcome.exitNonzero) = registeredModels := by
    decide
  have hw : (runAll fun _ => RunOutcome.exitNonzero).total_weight = 15/2 := by
    rw [runAll_eq]
    norm_num [hload, registeredModels, qsum, weights]
  have hs : (runAll fun _ => RunOutcome.exitNonzero).weighted_sum = 0 := by
    rw [runAll_eq]
    norm_num [hload, registeredModels, qsum, weights, modelResultScore]
  have hc : (analyzeTweetComprehensive fun _ => RunOutcome.exitNonzero).composite_score
      = 0 := by
    rw [analyze_composite]
    rw [compositeOf, hw, hs]
    norm_num
  refine ⟨?_, ?_, hc, ?_, ?_, hw, hs⟩
  · rw [analyze_model_results, runAll_eq]
    simp [hload, registeredModels, modelResultScore]
  · rw [analyze_model_results, runAll_eq]
    simp [hload, registeredModels]
  · rw [analyze_risk_level, hc]
    norm_num [riskChain]
  · rw [analyze_risk_description, hc]
    norm_num [riskChain]

/-- Witness for `all_nonzero_exit_report` at the literal all-failing
environment. -/
theorem all_nonzero_exit_report_witness :
    (analyzeTweetComprehensive envAllNonzeroExit).model_results =
      registeredModels.map (fun m => (m, ⟨some 0, .success⟩)) ∧
    (analyzeTweetComprehensive envAllNonzeroExit).model_results.length = 10 ∧
    (analyzeTweetComprehensive envAllNonzeroExit).composite_score = 0 ∧
    (analyzeTweetComprehensive envAllNonzeroExit).risk_assessment.risk_level =
      .MINIMAL ∧
    (analyzeTweetComprehensive envAllNonzeroExit).risk_assessment.risk_description =
      "Minimal risk, appears to be genuine engagement" ∧
    (runAll envAllNonzeroExit).total_weight = 15/2 ∧
    (runAll envAllNonzeroExit).weighted_sum = 0 :=
  all_nonzero_exit_report envAllNonzeroExit (fun _ => rfl)

/-- Claim C3 counterexample: when validation fails for every model, the
returned `model_results` is empty — the declared model
`hyperbole_falsehood` (and every other) is silently dropped, with no
`skipped_unloaded` outcome (no such status exists in the code). -/
theorem unloaded_model_dropped :
    (analyzeTweetComprehensive envAllUnloaded).model_results = [] ∧
    ModelName.hyperbole_falsehood ∈ registeredModels := by
  constructor
  · rw [analyze_model_results, runAll_eq]
    have hload : loadedModels envAllUnloaded = [] := by decide
    simp [hload]
  · decide

/-- Claim C3 (amended): every model that passed the availability check
produces exactly one outcome per analysis call, in registration order and
without duplicates; a model that failed the check is skipped entirely and
produces no outcome at all (it is silently absent from the report, not marked
`skipped_unloaded`). -/
theorem loaded_models_exactly_one_outcome (env : ModelName → RunOutcome) :
    ((analyzeTweetComprehensive env).model_results.map Prod.fst =
      loadedModels env) ∧
    ((analyzeTweetComprehensive env).model_results.map Prod.fst).Nodup ∧
    (∀ m, env m = .notLoaded →
      ∀ p ∈ (analyzeTweetComprehensive env).model_results, p.1 ≠ m) := by
  have h1 : (analyzeTweetComprehensive env).model_results.map Prod.fst =
      loadedModels env := by
    rw [analyze_model_results, runAll_eq]
    simp [Function.comp_def]
  refine ⟨h1, ?_, ?_⟩
  · rw [h1]
    exact (by decide : registeredModels.Nodup).filter _
  · intro m hm p hp
    rw [analyze_model_results, runAll_eq] at hp
    rcases List.mem_map.mp hp with ⟨m', hm', rfl⟩
    intro hcontra
    have hmm : m' = m := hcontra
    rw [hmm] at hm'
    exact (mem_loadedModels.mp hm') hm

/-- Only `clickbait` is loaded; its scorer exits with non-zero status. -/
def envOneNonzero : ModelName → RunOutcome := fun m =>
  if m = .clickbait then .exitNonzero else .notLoaded

/-- Witness for `loaded_models_exactly_one_outcome`: one loaded model, and its
outcome entry does not belong to the unloaded `hyperbole_falsehood`. -/
theorem loaded_models_exactly_one_outcome_witness :
    ((analyzeTweetComprehensive envOneNonzero).model_results.map Prod.fst =
      loadedModels envOneNonzero) ∧
    (ModelName.clickbait, (⟨some 0, .success⟩ : ModelOutcome)).1 ≠
      ModelName.hyperbole_falsehood :=
  ⟨(loaded_models_exactly_one_outcome envOneNonzero).1,
    (loaded_models_exactly_one_outcome envOneNonzero).2.2
      .hyperbole_falsehood rfl _
      ((loaded_zero_mem envOneNonzero .clickbait (by decide) rfl).1)⟩

/-- Claim C5 counterexample: only `engagement_mismatch` runs and its scorer
times out.  The recorded outcome has status `success` with score `0.0` — there
is no `timeout` status in the code's taxonomy — and the model's weight is
counted in the denominator. -/
theorem timeout_yields_success_zero :
    (analyzeTweetComprehensive envTimeoutOne).model_results =
      [(.engagement_mismatch, ⟨some 0, .success⟩)] ∧
    (runAll envTimeoutOne).total_weight = 1 := by
  have hload : loadedModels envTimeoutOne = [.engagement_mismatch] := by decide
  constructor
  · rw [analyze_model_results, runAll_eq]
    simp [hload, envTimeoutOne, modelResultScore]
  · rw [runAll_eq]
    simp [hload, qsum, weights]

/-- Claim C5 (amended): a scorer invocation that exceeds the 30-second
timeout is caught (`subprocess.TimeoutExpired`) and its score replaced by the
`0.0` fallback: the resulting outcome has status `success` with score `0.0`,
and the model contributes its full weight to the denominator and zero to the
numerator of the composite. -/
theorem timed_out_clamped_to_zero (env : ModelName → RunOutcome)
    (m : ModelName) (h : env m = .timedOut) :
    (m, (⟨some 0, .success⟩ : ModelOutcome)) ∈
        (analyzeTweetComprehensive env).model_results ∧
    (⟨m, 0, weights m, 0⟩ : BreakdownEntry) ∈
        (analyzeTweetComprehensive env).weighted_breakdown := by
  apply loaded_zero_mem
  · rw [h]
    intro hc
    exact RunOutcome.noConfusion hc
  · rw [h]
    rfl

/-- Witness for `timed_out_clamped_to_zero` at the concrete environment where
`engagement_mismatch` times out. -/
theorem timed_out_clamped_to_zero_witness :
    (ModelName.engagement_mismatch, (⟨some 0, .success⟩ : ModelOutcome)) ∈
        (analyzeTweetComprehensive envTimeoutOne).model_results ∧
    (⟨.engagement_mismatch, 0, weights .engagement_mismatch, 0⟩ : BreakdownEntry) ∈
        (analyzeTweetComprehensive envTimeoutOne).weighted_breakdown :=
  timed_out_clamped_to_zero envTimeoutOne .engagement_mismatch rfl

/-- Every loaded model's outcome carries status `success`, so the success
scores of a run are exactly the (fallback-clamped) scores of the loaded
models, in registration order. -/
lemma successScoresOf_map_success (l : List ModelName) (g : ModelName → ℚ) :
    successScoresOf (l.map fun m =>
      ((m, ⟨some (g m), .success⟩) : ModelName × ModelOutcome)) = l.map g := by
  unfold successScoresOf
  induction l with
  | nil => rfl
  | cons a as ih =>
    simp only [List.map_cons, List.filterMap_cons, ih]
    rfl

lemma successScoresOf_runAll (env : ModelName → RunOutcome) :
    successScoresOf (analyzeTweetComprehensive env).model_results =
      (loadedModels env).map (fun m => modelResultScore (env m)) := by
  rw [analyze_model_results, runAll_eq]
  exact successScoresOf_map_success (loadedModels env) _

/-- Claim C4: the composite score is a convex combination of the scores of
the `success` outcomes: when at least one model succeeds it lies between the
minimum and maximum successful score, and when none succeed it is exactly
0.0.  (All model weights are positive, `weights_pos`.) -/
theorem composite_convex_combination (env : ModelName → RunOutcome) :
    (successScoresOf (analyzeTweetComprehensive env).model_results = [] →
      (analyzeTweetComprehensive env).composite_score = 0) ∧
    (successScoresOf (analyzeTweetComprehensive env).model_results ≠ [] →
      listMin (successScoresOf (analyzeTweetComprehensive env).model_results) ≤
          (analyzeTweetComprehensive env).composite_score ∧
        (analyzeTweetComprehensive env).composite_score ≤
          listMax (successScoresOf (analyzeTweetComprehensive env).model_results)) := by
  have hss := successScoresOf_runAll env
  have hcomp : (analyzeTweetComprehensive env).composite_score =
      compositeOf (runAll env) := rfl
  rw [runAll_eq] at hcomp
  constructor
  · intro h
    rw [hss] at h
    have hL : loadedModels env = [] := List.map_eq_nil_iff.mp h
    rw [hcomp, compositeOf, hL]
    simp [qsum]
  · intro h
    rw [hss] at h ⊢
    have hL : loadedModels env ≠ [] := by
      intro hc
      exact h (by rw [hc]; rfl)
    have hWpos : 0 < qsum ((loadedModels env).map weights) := by
      apply qsum_pos
      · simpa using hL
      · intro x hx
        rcases List.mem_map.mp hx with ⟨m, _, rfl⟩
        exact weights_pos m
    have hWnonneg : ∀ m ∈ loadedModels env, (0:ℚ) ≤ weights m :=
      fun m _ => le_of_lt (weights_pos m)
    have hub : ∀ m ∈ loadedModels env, modelResultScore (env m) ≤
        listMax ((loadedModels env).map fun m => modelResultScore (env m)) := by
      intro m hm
      exact le_listMax _ _ (List.mem_map.mpr ⟨m, hm, rfl⟩)
    have hlb : ∀ m ∈ loadedModels env,
        listMin ((loadedModels env).map fun m => modelResultScore (env m)) ≤
          modelResultScore (env m) := by
      intro m hm
      exact listMin_le _ _ (List.mem_map.mpr ⟨m, hm, rfl⟩)
    have hS_le := qsum_map_le (loadedModels env)
      (fun m => modelResultScore (env m)) weights
      (listMax ((loadedModels env).map fun m => modelResultScore (env m)))
      hWnonneg hub
    have hS_ge := le_qsum_map (loadedModels env)
      (fun m => modelResultScore (env m)) weights
      (listMin ((loadedModels env).map fun m => modelResultScore (env m)))
      hWnonneg hlb
    rw [hcomp, compositeOf]
    simp only [hWpos, if_pos]
    constructor
    · rw [le_div_iff₀ hWpos]
      exact hS_ge
    · rw [div_le_iff₀ hWpos]
      calc qsum ((loadedModels env).map fun m => modelResultScore (env m) * weights m)
          ≤ listMax ((loadedModels env).map fun m => modelResultScore (env m)) *
              qsum ((loadedModels env).map weights) := hS_le
        _ = _ := by ring

/-- Successful scores of the §8 scenario-1 run: 0.8, 0.6, 0.4 in registration
order. -/
lemma scenario1_successScores :
    successScoresOf (analyzeTweetComprehensive envScenario1).model_results =
      [8/10, 6/10, 4/10] := by
  rw [successScoresOf_runAll]
  have hload : loadedModels envScenario1 =
      [.coordinated_network, .emotive_manipulation, .generic_comment] := by decide
  rw [hload]
  norm_num [envScenario1, modelResultScore]

/-- Witness for `composite_convex_combination` on the three-model scenario-1
run. -/
theorem composite_convex_combination_witness :
    successScoresOf (analyzeTweetComprehensive envScenario1).model_results ≠ [] ∧
    (listMin (successScoresOf (analyzeTweetComprehensive envScenario1).model_results) ≤
        (analyzeTweetComprehensive envScenario1).composite_score ∧
      (analyzeTweetComprehensive envScenario1).composite_score ≤
        listMax (successScoresOf (analyzeTweetComprehensive envScenario1).model_results)) :=
  ⟨by rw [scenario1_successScores]; simp,
    (composite_convex_combination envScenario1).2
      (by rw [scenario1_successScores]; simp)⟩

/-- Claim C6: risk classification uses closed-lower-bound half-open
intervals — a composite of exactly 0.8 / 0.6 / 0.4 / 0.2 falls in the higher
bucket, 1.0 is CRITICAL, below 0.2 is MINIMAL — and the produced description
is always the level's fixed canonical string. -/
theorem risk_classification_intervals (c : ℚ) :
    (8/10 ≤ c →
      riskChain c = (.CRITICAL,
        "Very high manipulation risk detected across multiple dimensions")) ∧
    (6/10 ≤ c → c < 8/10 →
      riskChain c = (.HIGH, "High manipulation risk with concerning patterns")) ∧
    (4/10 ≤ c → c < 6/10 →
      riskChain c = (.MODERATE, "Moderate risk with some concerning indicators")) ∧
    (2/10 ≤ c → c < 4/10 →
      riskChain c = (.LOW, "Low risk with minimal concerning indicators")) ∧
    (c < 2/10 →
      riskChain c = (.MINIMAL, "Minimal risk, appears to be genuine engagement")) ∧
    (riskChain c).2 = canonicalDescription (riskChain c).1 := by
  refine ⟨?_, ?_, ?_, ?_, ?_, ?_⟩
  · intro h1
    rw [riskChain, if_pos h1]
  · intro h1 h2
    rw [riskChain, if_neg (by linarith), if_pos h1]
  · intro h1 h2
    rw [riskChain, if_neg (by linarith), if_neg (by linarith), if_pos h1]
  · intro h1 h2
    rw [riskChain, if_neg (by linarith), if_neg (by linarith),
      if_neg (by linarith), if_pos h1]
  · intro h1
    rw [riskChain, if_neg (by linarith), if_neg (by linarith),
      if_neg (by linarith), if_neg (by linarith)]
  · rw [riskChain]
    split_ifs <;> rfl

/-- Witness for `risk_classification_intervals`: the four boundary composites
0.8, 0.6, 0.4, 0.2 classify into the higher bucket, 1.0 is CRITICAL and 0.1
is MINIMAL, each with its canonical description. -/
theorem risk_classification_intervals_witness :
    riskChain (8/10) = (.CRITICAL,
      "Very high manipulation risk detected across multiple dimensions") ∧
    riskChain (6/10) = (.HIGH, "High manipulation risk with concerning patterns") ∧
    riskChain (4/10) = (.MODERATE, "Moderate risk with some concerning indicators") ∧
    riskChain (2/10) = (.LOW, "Low risk with minimal concerning indicators") ∧
    riskChain 1 = (.CRITICAL,
      "Very high manipulation risk detected across multiple dimensions") ∧
    riskChain (1/10) = (.MINIMAL, "Minimal risk, appears to be genuine engagement") :=
  ⟨(risk_classification_intervals (8/10)).1 (by norm_num),
    (risk_classification_intervals (6/10)).2.1 (by norm_num) (by norm_num),
    (risk_classification_intervals (4/10)).2.2.1 (by norm_num) (by norm_num),
    (risk_classification_intervals (2/10)).2.2.2.1 (by norm_num) (by norm_num),
    (risk_classification_intervals 1).1 (by norm_num),
    (risk_classification_intervals (1/10)).2.2.2.2.1 (by norm_num)⟩

/-- Composite score of the scenario-1 run: 1.4/2.2 = 7/11. -/
lemma scenario1_composite :
    (analyzeTweetComprehensive envScenario1).composite_score = 7/11 := by
  have hload : loadedModels envScenario1 =
      [.coordinated_network, .emotive_manipulation, .generic_comment] := by decide
  rw [analyze_composite, runAll_eq, compositeOf]
  norm_num [hload, qsum, weights, envScenario1, modelResultScore]

/-- Claim C8 counterexample: on the spec §8 scenario-1 run (three successes
with scores 0.8, 0.6, 0.4 and weights 1.0, 0.6, 0.6) the composite is
1.4/2.2 = 7/11 ≈ 0.636 — not 1.04/2.2 = 26/55 ≈ 0.473 — and the risk level is
HIGH, not MODERATE.  (The spec's numerator 1.04 is an arithmetic slip:
0.8·1.0 + 0.6·0.6 + 0.4·0.6 = 1.4, as the repository's own
`test_system.py::test_weight_calculation` computes.) -/
theorem scenario1_not_moderate :
    successScoresOf (analyzeTweetComprehensive envScenario1).model_results =
      [8/10, 6/10, 4/10] ∧
    (analyzeTweetComprehensive envScenario1).composite_score = 7/11 ∧
    ¬ ((7:ℚ)/11 = 26/55) ∧
    (analyzeTweetComprehensive envScenario1).risk_assessment.risk_level = .HIGH ∧
    RiskLevel.HIGH ≠ RiskLevel.MODERATE := by
  refine ⟨scenario1_successScores, scenario1_composite, by norm_num, ?_, by decide⟩
  rw [analyze_risk_level, scenario1_composite]
  norm_num [riskChain]

/-- Claim C8 (amended): on the scenario-1 run the composite equals
(0.8·1.0 + 0.6·0.6 + 0.4·0.6)/(1.0 + 0.6 + 0.6) = 1.4/2.2 = 7/11 ≈ 0.636 and
the risk level is HIGH. -/
theorem scenario1_composite_and_level :
    (analyzeTweetComprehensive envScenario1).composite_score =
      (8/10 * 1 + 6/10 * (6/10) + 4/10 * (6/10)) / (1 + 6/10 + 6/10) ∧
    (analyzeTweetComprehensive envScenario1).composite_score = 7/11 ∧
    (analyzeTweetComprehensive envScenario1).risk_assessment.risk_level = .HIGH := by
  refine ⟨?_, scenario1_composite, ?_⟩
  · rw [scenario1_composite]
    norm_num
  · rw [analyze_risk_level, scenario1_composite]
    norm_num [riskChain]

/-- The risk-factor list extracted from a run's `model_results` is ordered by
strictly increasing registration index (one entry per selected model, in
iteration order). -/
lemma riskFactors_reg_pairwise (env : ModelName → RunOutcome) :
    (riskFactorsOf (analyzeTweetComprehensive env).model_results).Pairwise
      (fun x y => regIndex x.model < regIndex y.model) := by
  rw [analyze_model_results, runAll_eq]
  have h0 : registeredModels.Pairwise (fun a b => regIndex a < regIndex b) := by
    decide
  have h1 : (loadedModels env).Pairwise (fun a b => regIndex a < regIndex b) :=
    h0.filter _
  have h2 : ((loadedModels env).map fun m =>
      ((m, ⟨some (modelResultScore (env m)), .success⟩) : ModelName × ModelOutcome)).Pairwise
      (fun p q => regIndex p.1 < regIndex q.1) := by
    exact h1.map _ (fun a b hab => hab)
  apply List.Pairwise.filterMap _ _ h2
  intro p q hpq x hx y hy
  have hxm : x.model = p.1 := by
    by_cases hc : p.2.status = Status.success ∧ 1/2 < p.2.score.getD 0
    · rw [if_pos hc] at hx
      cases hx
      rfl
    · rw [if_neg hc] at hx
      cases hx
  have hym : y.model = q.1 := by
    by_cases hc : q.2.status = Status.success ∧ 1/2 < q.2.score.getD 0
    · rw [if_pos hc] at hy
      cases hy
      rfl
    · rw [if_neg hc] at hy
      cases hy
  rw [hxm, hym]
  exact hpq

/-- Claim C7: `top_risk_factors` is the 3-element prefix of the stable
descending sort (by score·weight) of exactly those outcomes with status
`success` and score strictly above 0.5; the sorted list is a permutation of
the selected list; and each returned factor precedes the next either by a
strictly larger weighted contribution or — on ties — by an earlier
registration index. -/
theorem top_risk_factors_spec (env : ModelName → RunOutcome) :
    (analyzeTweetComprehensive env).risk_assessment.top_risk_factors =
      (sortFactorsDesc
        (riskFactorsOf (analyzeTweetComprehensive env).model_results)).take 3 ∧
    (analyzeTweetComprehensive env).risk_assessment.top_risk_factors.length ≤ 3 ∧
    (sortFactorsDesc
        (riskFactorsOf (analyzeTweetComprehensive env).model_results)).Perm
      (riskFactorsOf (analyzeTweetComprehensive env).model_results) ∧
    (∀ f : RiskFactor,
      f ∈ riskFactorsOf (analyzeTweetComprehensive env).model_results ↔
        ∃ p ∈ (analyzeTweetComprehensive env).model_results,
          p.2.status = .success ∧ 1/2 < p.2.score.getD 0 ∧
          f = ⟨p.1, p.2.score.getD 0, weights p.1⟩) ∧
    ((analyzeTweetComprehensive env).risk_assessment.top_risk_factors).Pairwise
      factorRel := by
  refine ⟨rfl, ?_, sortFactorsDesc_perm _, ?_, ?_⟩
  · exact List.length_take_le 3 _
  · intro f
    simp only [riskFactorsOf, List.mem_filterMap]
    constructor
    · rintro ⟨p, hp, hgp⟩
      by_cases hc : p.2.status = Status.success ∧ 1/2 < p.2.score.getD 0
      · rw [if_pos hc] at hgp
        cases hgp
        exact ⟨p, hp, hc.1, hc.2, rfl⟩
      · rw [if_neg hc] at hgp
        cases hgp
    · rintro ⟨p, hp, hs, hgt, rfl⟩
      exact ⟨p, hp, by rw [if_pos ⟨hs, hgt⟩]⟩
  · exact List.Pairwise.sublist (List.take_sublist 3 _)
      (sortFactorsDesc_pairwise _ (riskFactors_reg_pairwise env))

/-- Claim C9: recommendations are independent, non-exclusive triggers on the
composite score — a composite ≥ 0.6 adds both the manual-review and the
pattern-monitoring lines, ≥ 0.4 adds the pattern-review line (so 0.65 yields
all three), and < 0.2 adds the genuine-engagement line — and the confidence
label is `high` iff at least 7 models succeeded, `medium` iff 4 to 6, else
`low`; the summary fields are exactly these functions of the composite and
the success count. -/
theorem recommendations_and_confidence (c : ℚ) (n : ℕ)
    (env : ModelName → RunOutcome) :
    (("Consider flagging for manual review" ∈ recommendationsOf c) ↔ 6/10 ≤ c) ∧
    (("Monitor for similar patterns" ∈ recommendationsOf c) ↔ 6/10 ≤ c) ∧
    (("Review engagement patterns" ∈ recommendationsOf c) ↔ 4/10 ≤ c) ∧
    (("Engagement appears genuine" ∈ recommendationsOf c) ↔ c < 2/10) ∧
    recommendationsOf (13/20) =
      ["Consider flagging for manual review", "Monitor for similar patterns",
        "Review engagement patterns"] ∧
    (confidenceOf n = "high" ↔ 7 ≤ n) ∧
    (confidenceOf n = "medium" ↔ 4 ≤ n ∧ n < 7) ∧
    (confidenceOf n = "low" ↔ n < 4) ∧
    (analyzeTweetComprehensive env).summary.recommendations =
      recommendationsOf (analyzeTweetComprehensive env).composite_score ∧
    (analyzeTweetComprehensive env).summary.analysis_confidence =
      confidenceOf (successCount (analyzeTweetComprehensive env).model_results) := by
  refine ⟨?_, ?_, ?_, ?_, ?_, ?_, ?_, ?_, rfl, rfl⟩
  · unfold recommendationsOf
    split_ifs with h1 h2 h3 <;> simp_all
  · unfold recommendationsOf
    split_ifs with h1 h2 h3 <;> simp_all
  · unfold recommendationsOf
    split_ifs with h1 h2 h3 <;> simp_all
  · unfold recommendationsOf
    split_ifs with h1 h2 h3 <;> simp_all
  · norm_num [recommendationsOf]
  · unfold confidenceOf
    split_ifs with h1 h2 <;> simp_all
  · unfold confidenceOf
    split_ifs with h1 h2 <;> simp_all
  · unfold confidenceOf
    split_ifs with h1 h2 <;> simp_all
    all_goals omega

/-- Claim C10: in every returned result, an outcome's score field is numeric
exactly when its status is `success`; a `success` outcome carries a score in
[0,1] together with a matching weighted-breakdown entry, and a non-`success`
outcome carries a null score and owns no breakdown entry. -/
theorem score_numeric_iff_success (env : ModelName → RunOutcome) :
    ∀ p ∈ (analyzeTweetComprehensive env).model_results,
      (p.2.status = .success ↔ p.2.score ≠ none) ∧
      (p.2.status = .success → ∃ s : ℚ, p.2.score = some s ∧ 0 ≤ s ∧ s ≤ 1 ∧
        (⟨p.1, s, weights p.1, s * weights p.1⟩ : BreakdownEntry) ∈
          (analyzeTweetComprehensive env).weighted_breakdown) ∧
      (p.2.status ≠ .success → p.2.score = none ∧
        ∀ b ∈ (analyzeTweetComprehensive env).weighted_breakdown,
          b.model ≠ p.1) := by
  intro p hp
  rw [analyze_model_results, runAll_eq] at hp
  rcases List.mem_map.mp hp with ⟨m, hm, rfl⟩
  refine ⟨by simp, ?_, ?_⟩
  · intro _
    refine ⟨modelResultScore (env m), rfl, modelResultScore_nonneg _,
      modelResultScore_le_one _, ?_⟩
    rw [analyze_breakdown, runAll_eq]
    exact List.mem_map.mpr ⟨m, hm, rfl⟩
  · intro hcontra
    exact absurd rfl hcontra

/-- Witness for `score_numeric_iff_success` at the environment where only
`clickbait` runs (exiting non-zero, hence a `success` outcome with the `0.0`
fallback score). -/
theorem score_numeric_iff_success_witness :
    ((ModelName.clickbait, (⟨some 0, .success⟩ : ModelOutcome)).2.status =
        .success ↔
      (ModelName.clickbait, (⟨some 0, .success⟩ : ModelOutcome)).2.score ≠ none) ∧
    ((ModelName.clickbait, (⟨some 0, .success⟩ : ModelOutcome)).2.status =
        .success → ∃ s : ℚ,
      (ModelName.clickbait, (⟨some 0, .success⟩ : ModelOutcome)).2.score = some s ∧
      0 ≤ s ∧ s ≤ 1 ∧
      (⟨(ModelName.clickbait, (⟨some 0, .success⟩ : ModelOutcome)).1, s,
          weights (ModelName.clickbait,
            (⟨some 0, .success⟩ : ModelOutcome)).1,
          s * weights (ModelName.clickbait,
            (⟨some 0, .success⟩ : ModelOutcome)).1⟩ : BreakdownEntry) ∈
        (analyzeTweetComprehensive envOneNonzero).weighted_breakdown) ∧
    ((ModelName.clickbait, (⟨some 0, .success⟩ : ModelOutcome)).2.status ≠
        .success →
      (ModelName.clickbait, (⟨some 0, .success⟩ : ModelOutcome)).2.score = none ∧
      ∀ b ∈ (analyzeTweetComprehensive envOneNonzero).weighted_breakdown,
        b.model ≠ (ModelName.clickbait, (⟨some 0, .success⟩ : ModelOutcome)).1) :=
  score_numeric_iff_success envOneNonzero
    (ModelName.clickbait, (⟨some 0, .success⟩ : ModelOutcome))
    ((loaded_zero_mem envOneNonzero .clickbait (by decide) rfl).1)

end ECS
